import Mathlib

/-!
Verification of the `deploy.py` content-deployment script of kdvol.github.io.

The script's pure core is embedded over `List Char` (Python `str` values are
modelled as lists of unicode characters; `\d` and `\s` in the script's regexes
are modelled by their ASCII meaning, which covers every character class the
script's file names and markers use).  Filesystem reads are passed in as
explicit parameters; subprocess calls (git) are outside the embedded core.
-/

set_option maxHeartbeats 1000000
set_option maxRecDepth 10000

namespace Deploy

/-! ## Python string primitives (`find`, `in`, `replace`, `strip`, `split`) -/

/-- Python `sub in s` / `s.find(sub)` succeed at index `i` iff `sub` occurs
starting at `i`. -/
def MatchAt (sub s : List Char) (i : Nat) : Prop := sub <+: s.drop i

instance (sub s : List Char) (i : Nat) : Decidable (MatchAt sub s i) := by
  unfold MatchAt; infer_instance

/-- Python `s.find(sub)`: index of the leftmost occurrence of `sub` in `s`
(`none` models the return value `-1`). -/
def pyFind (sub : List Char) : List Char → Option Nat
  | [] => if sub <+: [] then some 0 else none
  | c :: t => if sub <+: (c :: t) then some 0 else (pyFind sub t).map (· + 1)

/-- Python `sub in s`. -/
def pyContains (s sub : List Char) : Bool := (pyFind sub s).isSome

/-- Python `s.find(sub, start)`. -/
def pyFindFrom (sub s : List Char) (start : Nat) : Option Nat :=
  (pyFind sub (s.drop start)).map (· + start)

/-- Worker for Python `s.replace(old, new)` (all non-overlapping occurrences,
left to right); `old` is nonempty at every call site in the script.  The
fuel argument only bounds the recursion (every step consumes at least one
character, so fuel `s.length` never runs out). -/
def replaceGo (old new : List Char) : Nat → List Char → List Char
  | 0, s => s
  | _ + 1, [] => []
  | fuel + 1, c :: t =>
    if old <+: (c :: t) then new ++ replaceGo old new fuel (t.drop (old.length - 1))
    else c :: replaceGo old new fuel t

/-- Python `s.replace(old, new)`.  The script never calls `replace` with an
empty pattern, so that (special-cased) Python behaviour is mapped to `s`. -/
def pyReplace (s old new : List Char) : List Char :=
  if old.isEmpty then s else replaceGo old new s.length s

/-- The whitespace class of Python's `str.strip()` / regex `\s` (ASCII part). -/
def pyWS (c : Char) : Bool :=
  c == ' ' || c == '\t' || c == '\n' || c == '\r' || c == '\x0b' || c == '\x0c'

/-- Python `s.strip()`. -/
def pyStrip (s : List Char) : List Char :=
  (((s.dropWhile pyWS).reverse).dropWhile pyWS).reverse

/-- Python `s.split(sep)[0]`: the text before the first occurrence of `sep`
(all of `s` when `sep` does not occur). -/
def pySplitHead (s sep : List Char) : List Char :=
  match pyFind sep s with
  | some i => s.take i
  | none => s

/-- Python `s.split(sep, 1)[-1]`: the text after the first occurrence of `sep`
(all of `s` when `sep` does not occur). -/
def pySplitTail1 (s sep : List Char) : List Char :=
  match pyFind sep s with
  | some i => s.drop (i + sep.length)
  | none => s

/-! ## Models of the script's regular-expression searches

Each `re.search`/`re.findall` call of `deploy.py` uses a pattern whose greedy
and lazy parts are followed by characters the parts cannot match, so every one
of them has a deterministic first-match semantics; the scanners below implement
exactly that leftmost-match scan. -/

/-- Generic leftmost-position scan: Python `re.search` tries each start
position from the left and returns the first position where the pattern
matcher `f` succeeds. -/
def searchO {α : Type} (f : List Char → Option α) : List Char → Option α
  | [] => f []
  | c :: t =>
    match f (c :: t) with
    | some r => some r
    | none => searchO f t

/-- Consume exactly `n` decimal digits (regex `\d{n}` with ASCII digits). -/
def takeDigits (n : Nat) (s : List Char) : Option (List Char × List Char) :=
  let d := s.take n
  if d.length = n ∧ d.all Char.isDigit then some (d, s.drop n) else none

/-- Consume one expected character. -/
def expectChar (c : Char) (s : List Char) : Option (List Char) :=
  match s with
  | [] => none
  | c' :: t => if c' = c then some t else none

/-- Consume a literal. -/
def expectLit (lit s : List Char) : Option (List Char) :=
  if lit <+: s then some (s.drop lit.length) else none

/-- Consume one-or-more whitespace (regex `\s+`, here followed by a
non-whitespace literal, so maximal munch is exact). -/
def expectWS (s : List Char) : Option (List Char) :=
  let w := s.takeWhile pyWS
  if w.isEmpty then none else some (s.drop w.length)

/-- Lazy body of `(.*?)` followed by the literal `close`: the shortest run of
non-newline characters after which `close` matches (regex `.` does not match a
newline). Returns the captured run and the rest after `close`. -/
def scanLazy (close : List Char) : List Char → Option (List Char × List Char)
  | [] => none
  | c :: t =>
    if close <+: (c :: t) then some ([], (c :: t).drop close.length)
    else if c = '\n' then none
    else (scanLazy close t).map (fun p => (c :: p.1, p.2))

/-! ### The concrete patterns of `deploy.py` -/

/-- Matcher at one position for
`<meta\s+name="soonsal-keywords"\s+content="([^"]+)"` (line 103); returns the
capture group. -/
def metaAt (s : List Char) : Option (List Char) := do
  let s ← expectLit "<meta".data s
  let s ← expectWS s
  let s ← expectLit "name=\"soonsal-keywords\"".data s
  let s ← expectWS s
  let s ← expectLit "content=\"".data s
  let grp := s.takeWhile (fun c => !(c == '"'))
  if grp.isEmpty then none
  else
    let s := s.drop grp.length
    match s with
    | [] => none
    | _ :: _ => some grp

/-- `re.search` for the keywords meta tag (priority 1 of `extract_keywords`). -/
def metaSearch (s : List Char) : Option (List Char) := searchO metaAt s

/-- The non-overlapping left-to-right scan of `re.findall`: on a match the
scan resumes after the match, on a failure one position further.  The fuel
only bounds the recursion (a match consumes at least the 24-character open
literal, so fuel `s.length` never runs out). -/
def storyGo : Nat → List Char → List (List Char)
  | 0, _ => []
  | _ + 1, [] => []
  | fuel + 1, c :: t =>
    if "<h2 class=\"story-title\">".data <+: (c :: t) then
      match scanLazy "</h2>".data ((c :: t).drop 24) with
      | some (inner, rest) => inner :: storyGo fuel rest
      | none => storyGo fuel t
    else storyGo fuel t

/-- `re.findall(r'<h2 class="story-title">(.*?)</h2>', html)` (line 108). -/
def findAllStory (s : List Char) : List (List Char) :=
  storyGo s.length s

/-- Matcher at one position for `<title>(.*?)</title>` (line 123). -/
def titleAt (s : List Char) : Option (List Char) :=
  if "<title>".data <+: s then
    (scanLazy "</title>".data (s.drop 7)).map Prod.fst
  else none

/-- `re.search(r"<title>(.*?)</title>", html)`, returning the capture. -/
def titleSearch (s : List Char) : Option (List Char) := searchO titleAt s

/-- One step of `re.sub(r"<[^>]+>", "", t)`: given the text after a `<`, the
rest after the matching `>` (the tag needs at least one character between the
brackets). -/
def tagRest (t : List Char) : Option (List Char) :=
  let inner := t.takeWhile (fun c => !(c == '>'))
  if inner.isEmpty then none
  else
    match t.drop inner.length with
    | [] => none
    | _ :: r => some r

/-- The scan of `re.sub(r"<[^>]+>", "", t)`: drop every matched tag, keep the
character and move on otherwise.  The fuel only bounds the recursion (a
matched tag consumes at least three characters, so fuel `s.length` never runs
out). -/
def stripGo : Nat → List Char → List Char
  | 0, s => s
  | _ + 1, [] => []
  | fuel + 1, c :: t =>
    if c = '<' then
      match tagRest t with
      | some rest => stripGo fuel rest
      | none => c :: stripGo fuel t
    else c :: stripGo fuel t

/-- `re.sub(r"<[^>]+>", "", t)` (lines 112 and 125): strip HTML tags. -/
def stripTags (s : List Char) : List Char :=
  stripGo s.length s

/-- Matcher at one position for
`Latest &mdash; (\d{4})\.(\d{2})\.(\d{2})` (line 144). -/
def heroAt (s : List Char) : Option (List Char × List Char × List Char) := do
  let s ← expectLit "Latest &mdash; ".data s
  let (yyyy, s) ← takeDigits 4 s
  let s ← expectChar '.' s
  let (mm, s) ← takeDigits 2 s
  let s ← expectChar '.' s
  let (dd, _) ← takeDigits 2 s
  return (yyyy, mm ++ dd, yyyy ++ ".".data ++ mm ++ ".".data ++ dd)

/-- `get_hero_info` (lines 142-148): current Hero date of the main index, as
`(yyyy, mmdd, "YYYY.MM.DD")`, or `none` for the `(None, None, None)` result. -/
def get_hero_info (content : List Char) : Option (List Char × List Char × List Char) :=
  searchO heroAt content

/-- Matcher at one position for the first-today-section pattern of
`get_first_today_date` (lines 151-158); captures the `\d{4}\.\d{2}\.\d{2}`
group. -/
def firstTodayAt (s : List Char) : Option (List Char) := do
  let s ← expectLit "<div class=\"today\">\n  <div class=\"today-title\">".data s
  let (yyyy, s) ← takeDigits 4 s
  let s ← expectChar '.' s
  let (mm, s) ← takeDigits 2 s
  let s ← expectChar '.' s
  let (dd, s) ← takeDigits 2 s
  let _ ← expectLit " 전체 콘텐츠</div>".data s
  return yyyy ++ ".".data ++ mm ++ ".".data ++ dd

/-- `get_first_today_date` (lines 151-158). -/
def get_first_today_date (content : List Char) : Option (List Char) :=
  searchO firstTodayAt content

/-! ## Configuration (lines 32-68) -/

/-- The content types of the `TYPES` table. -/
inductive CType where
  | briefing
  | crypto
  | card
  | cryptoCard
  | english
deriving DecidableEq, Repr

/-- Type detection table (lines 32-38); order matters: longer pattern first. -/
def TYPES : List (List Char × CType × List Char × List Char) :=
  [("순살크립토카드뉴스".data, CType.cryptoCard, "cardnews".data, "-crypto".data),
   ("순살카드뉴스".data, CType.card, "cardnews".data, "".data),
   ("순살크립토".data, CType.crypto, "newsletters".data, "-crypto".data),
   ("순살브리핑".data, CType.briefing, "newsletters".data, "".data),
   ("SoonsalCrypto".data, CType.english, "english".data, "".data)]

/-- `MAIN_TAGS` (lines 41-47). -/
def MAIN_TAGS : CType → List Char
  | CType.briefing => "<span class=\"tag\" style=\"background:#F07040; color:#fff;\">브리핑</span>".data
  | CType.crypto => "<span class=\"tag tag-crypto\">Crypto</span>".data
  | CType.card => "<span class=\"tag tag-card\">Card</span>".data
  | CType.cryptoCard => "<span class=\"tag tag-card\">Card</span>".data
  | CType.english => "<span class=\"tag tag-en\">EN</span>".data

/-- `ARCHIVE_TAGS` (lines 50-56). -/
def ARCHIVE_TAGS : CType → List Char
  | CType.briefing => "<span class=\"tag tag-briefing\">브리핑</span>".data
  | CType.crypto => "<span class=\"tag tag-crypto\">Crypto</span>".data
  | CType.card => "<span class=\"tag tag-card\">Card</span>".data
  | CType.cryptoCard => "<span class=\"tag tag-card tag-crypto\">Card · Crypto</span>".data
  | CType.english => "<span class=\"tag tag-en\">EN</span>".data

/-- `LABELS` (lines 59-65). -/
def LABELS : CType → List Char
  | CType.briefing => "순살브리핑".data
  | CType.crypto => "순살크립토".data
  | CType.card => "순살카드뉴스".data
  | CType.cryptoCard => "순살크립토카드뉴스".data
  | CType.english => "".data

/-- `ORDER` (line 68): display order within a today-grid. -/
def ORDER : CType → Nat
  | CType.briefing => 0
  | CType.crypto => 1
  | CType.card => 2
  | CType.cryptoCard => 3
  | CType.english => 4

/-! ## Helpers (lines 75-139) -/

/-- The first-match loop of `detect_type` over a rule table. -/
def detectFrom (rules : List (List Char × CType × List Char × List Char))
    (filename : List Char) : Option (CType × List Char × List Char) :=
  match rules with
  | [] => none
  | (pat, ctype, dir, suf) :: rest =>
    if pyContains filename pat then some (ctype, dir, suf) else detectFrom rest filename

/-- `detect_type` (lines 75-80): first rule of `TYPES` whose pattern occurs in
the filename; `none` models the `(None, None, None)` result. -/
def detect_type (filename : List Char) : Option (CType × List Char × List Char) :=
  detectFrom TYPES filename

/-- Leftmost run of 8 consecutive digits, the match of
`re.search(r"(\d{4})(\d{2})(\d{2})", filename)` (line 87). -/
def findEight : List Char → Option (List Char)
  | [] => none
  | c :: t =>
    if ((c :: t).take 8).length = 8 ∧ ((c :: t).take 8).all Char.isDigit
    then some ((c :: t).take 8)
    else findEight t

/-- `extract_date` (lines 83-91): `(yyyy, mmdd, "YYYY.MM.DD")` from the first
8-digit run of the filename; `none` models `(None, None, None)`. -/
def extract_date (filename : List Char) : Option (List Char × List Char × List Char) :=
  (findEight filename).map fun d8 =>
    (d8.take 4, d8.drop 4,
     d8.take 4 ++ ".".data ++ (d8.drop 4).take 2 ++ ".".data ++ d8.drop 6)

/-- The per-heading cleanup of the story-title branch of `extract_keywords`
(lines 111-119): strip markup, cut at `" — "` or `"—"` (else truncate to 40),
re-strip. -/
def cleanStory (t : List Char) : List Char :=
  let clean := pyStrip (stripTags t)
  if pyContains clean " — ".data then pyStrip (pySplitHead clean " — ".data)
  else if pyContains clean "—".data then pyStrip (pySplitHead clean "—".data)
  else pyStrip (clean.take 40)

/-- The brand-stripping of the title branch of `extract_keywords`
(lines 125-131). -/
def cleanTitle (inner : List Char) : List Char :=
  let t := pyStrip (stripTags inner)
  if pyContains t " — ".data then pyStrip (pySplitTail1 t " — ".data)
  else if pyContains t " | ".data then pyStrip (pySplitTail1 t " | ".data)
  else if pyContains t "—".data then pyStrip (pySplitTail1 t "—".data)
  else if pyContains t "|".data then pyStrip (pySplitTail1 t "|".data)
  else t

/-- `extract_keywords` (lines 94-133).  The `ctype` argument is accepted but —
exactly as in the script — never inspected. -/
def extract_keywords (html : List Char) (_ctype : CType) : List Char :=
  match metaSearch html with
  | some grp => pyStrip grp
  | none =>
    let titles := findAllStory html
    if titles.isEmpty then
      match titleSearch html with
      | some inner => cleanTitle inner
      | none => "Untitled".data
    else (titles.map cleanStory).intersperse ", ".data |>.flatten

/-- `build_link` (lines 136-139). -/
def build_link (href tag label keywords : List Char) : List Char :=
  let text := if label.isEmpty then keywords else label ++ " · ".data ++ keywords
  "<a href=\"".data ++ href
    ++ "\" style=\"display:flex; align-items:center; gap:10px;\">".data
    ++ tag ++ text ++ "</a>".data

/-- One parsed input file (the dict built at lines 359-369). -/
structure Item where
  type : CType
  directory : List Char
  yyyy : List Char
  mmdd : List Char
  date_formatted : List Char
  keywords : List Char
  deploy_path : List Char
deriving DecidableEq, Repr

/-! ## Main index update (lines 165-266)

The function reads and writes `index.html` and possibly reads the previous
briefing file; the embedding takes the current `index.html` content `c` as a
parameter and the filesystem as a map `fs` from a path to the file content
(`none` when the file does not exist), and returns the new content. -/

/-- The sort key relation of `sorted(..., key=lambda x: ORDER[x["type"]])`;
Python's sort is stable, and `List.insertionSort` is the stable sort by this
relation. -/
def leItem (a b : Item) : Prop := ORDER a.type ≤ ORDER b.type

instance : DecidableRel leItem := fun a b => Nat.decLe _ _

instance : IsTotal Item leItem := ⟨fun a b => Nat.le_total _ _⟩

instance : IsTrans Item leItem := ⟨fun _ _ _ h1 h2 => Nat.le_trans h1 h2⟩

/-- `"Latest &mdash; "`. -/
def latestLit : List Char := "Latest &mdash; ".data

/-- The iframe-target marker replaced at lines 181-184:
`/newsletters/{yyyy}/{mmdd}.html" title="순살브리핑 최신호"`. -/
def iframeLit (yyyy mmdd : List Char) : List Char :=
  "/newsletters/".data ++ yyyy ++ "/".data ++ mmdd
    ++ ".html\" title=\"순살브리핑 최신호\"".data

/-- The repo-relative path `newsletters/{yyyy}/{mmdd}.html` of a briefing
file (line 187). -/
def newsPath (yyyy mmdd : List Char) : List Char :=
  "newsletters/".data ++ yyyy ++ "/".data ++ mmdd ++ ".html".data

/-- The grid marker of lines 199-202:
`{date} 전체 콘텐츠</div>\n  <div class="today-grid" ...>\n`. -/
def gridMarker (date_fmt : List Char) : List Char :=
  date_fmt ++ " 전체 콘텐츠</div>\n  <div class=\"today-grid\" style=\"grid-template-columns:1fr; gap:10px;\">\n".data

/-- Step 1 of `update_main_index` (lines 175-206): update the Hero label and
iframe target from the old date to the new one, and back-fill the old date's
today-section with a link to the old briefing file when that file exists. -/
def heroStep (fs : List Char → Option (List Char)) (yyyy mmdd date_fmt : List Char)
    (old_yyyy old_mmdd old_date_fmt : List Char) (c : List Char) : List Char :=
  let c := pyReplace c (latestLit ++ old_date_fmt) (latestLit ++ date_fmt)
  let c := pyReplace c (iframeLit old_yyyy old_mmdd) (iframeLit yyyy mmdd)
  match fs (newsPath old_yyyy old_mmdd) with
  | none => c
  | some old_html =>
    let old_kw := extract_keywords old_html CType.briefing
    let old_brief_link := build_link
      ("/newsletters/".data ++ old_yyyy ++ "/".data ++ old_mmdd ++ ".html".data)
      (MAIN_TAGS CType.briefing) "순살브리핑".data old_kw
    match pyFind (gridMarker old_date_fmt) c with
    | some pos =>
      let insert_at := pos + (gridMarker old_date_fmt).length
      c.take insert_at ++ "    ".data ++ old_brief_link ++ "\n".data ++ c.drop insert_at
    | none => c

/-- The `new_today` block of lines 222-229. -/
def todayBlock (date_fmt : List Char) (non_brief : List Item) : List Char :=
  let links := ((non_brief.map fun i =>
    "    ".data ++ build_link ("/".data ++ i.deploy_path) (MAIN_TAGS i.type)
      (LABELS i.type) i.keywords).intersperse "\n".data).flatten
  "<div class=\"today\">\n  <div class=\"today-title\">".data ++ date_fmt
    ++ " 전체 콘텐츠</div>\n  <div class=\"today-grid\" style=\"grid-template-columns:1fr; gap:10px;\">\n".data
    ++ links ++ "\n  </div>\n</div>".data

/-- The header of the first today-section (lines 234-237). -/
def todayHdr (date : List Char) : List Char :=
  "<div class=\"today\">\n  <div class=\"today-title\">".data ++ date
    ++ " 전체 콘텐츠</div>".data

/-- The demoted header with `padding-top:0` (lines 238-241). -/
def todayHdrPadded (date : List Char) : List Char :=
  "<div class=\"today\" style=\"padding-top:0;\">\n  <div class=\"today-title\">".data
    ++ date ++ " 전체 콘텐츠</div>".data

/-- The fresh-date branch of step 2 of `update_main_index` (lines 209-246):
build a today block from the non-briefing items, demote the current first
today-section with `padding-top:0`, and insert the new block before it. -/
def freshToday (items : List Item) (date_fmt : List Char) (c : List Char) : List Char :=
  let non_brief := List.insertionSort leItem
    (items.filter fun i => !(i.type == CType.briefing))
  let new_today : Option (List Char) :=
    if non_brief.isEmpty then none else some (todayBlock date_fmt non_brief)
  match get_first_today_date c with
  | none => c
  | some current_date =>
    let new_hdr := todayHdrPadded current_date
    let c := pyReplace c (todayHdr current_date) new_hdr
    match new_today with
    | some nt => pyReplace c new_hdr (nt ++ "\n\n".data ++ new_hdr)
    | none => c

/-- The existing-date branch of step 2 of `update_main_index` (lines 248-262):
append each non-briefing item's link at the end of the existing today-grid. -/
def appendToday (items : List Item) (date_fmt : List Char) (c : List Char) : List Char :=
  (List.insertionSort leItem items).foldl
    (fun c item =>
      if item.type == CType.briefing then c
      else
        let link := build_link ("/".data ++ item.deploy_path) (MAIN_TAGS item.type)
          (LABELS item.type) item.keywords
        match pyFind (date_fmt ++ " 전체 콘텐츠".data) c with
        | some pos =>
          match pyFindFrom "  </div>\n</div>".data c pos with
          | some grid_end => c.take grid_end ++ "    ".data ++ link ++ "\n".data ++ c.drop grid_end
          | none => c
        | none => c)
    c

/-- `update_main_index` (lines 165-266) as a pure content transformation. -/
def update_main_index (fs : List Char → Option (List Char)) (items : List Item)
    (date_fmt : List Char) (has_briefing : Bool) (yyyy mmdd : List Char)
    (c : List Char) : List Char :=
  let date_exists := pyContains c (date_fmt ++ " 전체 콘텐츠".data)
  let c1 :=
    if has_briefing then
      match get_hero_info c with
      | some (old_yyyy, old_mmdd, old_date_fmt) =>
        heroStep fs yyyy mmdd date_fmt old_yyyy old_mmdd old_date_fmt c
      | none => c
    else c
  if !date_exists then freshToday items date_fmt c1 else appendToday items date_fmt c1

/-! ## Archive index update (lines 273-317) -/

/-- `<div class="today-title">{date_str}</div>`, the section marker of the
archive index (lines 285 and 296). -/
def dateMarker (date_str : List Char) : List Char :=
  "<div class=\"today-title\">".data ++ date_str ++ "</div>".data

/-- `  <div class="today">` (line 303). -/
def secStart : List Char := "  <div class=\"today\">".data

/-- `    </div>\n  </div>` (line 298). -/
def archGridEnd : List Char := "    </div>\n  </div>".data

/-- The link built for an archive entry (lines 287-292). -/
def archiveLink (item : Item) : List Char :=
  build_link ("/".data ++ item.deploy_path) (ARCHIVE_TAGS item.type)
    (LABELS item.type) item.keywords

/-- `update_archive_index` (lines 273-317) as a pure transformation of the
archive index content (the read, the missing-archive-file skip and the write
are the caller's filesystem actions). -/
def update_archive_index (item : Item) (c : List Char) : List Char :=
  let date_str := item.date_formatted
  let link := archiveLink item
  if pyContains c (dateMarker date_str) then
    match pyFind (dateMarker date_str) c with
    | some pos =>
      match pyFindFrom archGridEnd c pos with
      | some grid_end =>
        c.take grid_end ++ "      ".data ++ link ++ "\n".data ++ c.drop grid_end
      | none => c
    | none => c
  else
    match pyFind secStart c with
    | some first_today =>
      c.take first_today
        ++ ("  <div class=\"today\">\n    <div class=\"today-title\">".data ++ date_str
          ++ "</div>\n    <div class=\"today-grid\" style=\"grid-template-columns:1fr; gap:10px;\">\n      ".data
          ++ link ++ "\n    </div>\n  </div>\n\n".data)
        ++ c.drop first_today
    | none => c

/-! ## Orchestrator (lines 324-399)

Argument parsing, file copying and the git subprocess calls are the
program's I/O shell; the embedding models the classification loop over the
basenames of the given paths, with `read` giving each file's HTML content. -/

/-- The per-file parse of lines 336-369: `none` means the file is skipped with
a diagnostic (`Cannot parse`). -/
def mkItem (read : List Char → List Char) (filename : List Char) : Option Item :=
  match detect_type filename, extract_date filename with
  | some (ctype, directory, suffix), some (yyyy, mmdd, date_fmt) =>
    some
      { type := ctype
        directory := directory
        yyyy := yyyy
        mmdd := mmdd
        date_formatted := date_fmt
        keywords := extract_keywords (read filename) ctype
        deploy_path := directory ++ "/".data ++ yyyy ++ "/".data ++ mmdd ++ suffix
          ++ ".html".data }
  | _, _ => none

/-- Outcome of a run of `main` up to the index-update phase: `usageError` and
`noValidFiles` are the two `sys.exit(1)` paths (lines 325-328 and 371-373),
`deployed` carries the successfully classified items. -/
inductive RunResult where
  | usageError
  | noValidFiles
  | deployed (items : List Item)
deriving DecidableEq

/-- `main` (lines 324-373) up to the point where at least one item exists:
argument check, per-file classification with skip-on-failure, and the
zero-successes abort. -/
def mainModel (args : List (List Char)) (read : List Char → List Char) : RunResult :=
  if args.isEmpty then RunResult.usageError
  else
    let items := args.filterMap (mkItem read)
    if items.isEmpty then RunResult.noValidFiles else RunResult.deployed items

/-! ## Definitions supporting the claim statements -/

/-- A document whose keywords meta tag itself carries the text `Untitled`. -/
def c5Html : List Char := "<meta name=\"soonsal-keywords\" content=\"Untitled\">".data


/-- A document with both a keywords meta tag and a story-title heading. -/
def c6Html : List Char :=
  "<meta name=\"soonsal-keywords\" content=\" Fed cuts rates \"><h2 class=\"story-title\">ignored</h2>".data


/-- A run of 8 consecutive (ASCII) digits starts at position `i` of `s`. -/
def EightAt (s : List Char) (i : Nat) : Prop :=
  ((s.drop i).take 8).length = 8 ∧ ∀ c ∈ (s.drop i).take 8, c.isDigit


/-- The first 26 characters of a generated archive section:
`  <div class="today">\n    `. -/
def archSecHead : List Char := "  <div class=\"today\">\n    ".data

/-- The grid-opening line between the title and the entries of a generated
archive section. -/
def archGridLine : List Char :=
  "\n    <div class=\"today-grid\" style=\"grid-template-columns:1fr; gap:10px;\">\n".data

/-- One entry line of a generated archive section: 6 spaces, the link, a
newline (the text inserted at line 300). -/
def entryLine (link : List Char) : List Char :=
  "      ".data ++ link ++ "\n".data

/-- An archive section exactly as `update_archive_index` generates it
(lines 305-312): the two-call behaviour of C1 is stated against documents
whose mutated region has this shape. -/
def renderSection (date_str : List Char) (entries : List (List Char)) : List Char :=
  archSecHead ++ dateMarker date_str ++ archGridLine
    ++ (entries.map entryLine).flatten ++ archGridEnd ++ "\n\n".data

/-- A concrete item for the C1 witness. -/
def c1Item : Item :=
  { type := CType.card
    directory := "cardnews".data
    yyyy := "2026".data
    mmdd := "0302".data
    date_formatted := "2026.03.02".data
    keywords := "k".data
    deploy_path := "cardnews/2026/0302.html".data }

/-- A small homepage with one (first) today section dated `2026.02.23`. -/
def c10Home : List Char :=
  "<body>\n<div class=\"today\">\n  <div class=\"today-title\">2026.02.23 전체 콘텐츠</div>\n  <div class=\"today-grid\" style=\"grid-template-columns:1fr; gap:10px;\">\n    <a href=\"/x.html\">x</a>\n  </div>\n</div>\n</body>".data

/-- A briefing item for `2026.03.02`. -/
def c10Brief : Item :=
  { type := CType.briefing
    directory := "newsletters".data
    yyyy := "2026".data
    mmdd := "0302".data
    date_formatted := "2026.03.02".data
    keywords := "kw".data
    deploy_path := "newsletters/2026/0302.html".data }

/-! ### Characterisation of `pyFind` -/

theorem matchAt_cons_succ (sub : List Char) (c : Char) (t : List Char) (j : Nat) :
    MatchAt sub (c :: t) (j + 1) ↔ MatchAt sub t j := Iff.rfl

theorem matchAt_zero_iff (sub s : List Char) : MatchAt sub s 0 ↔ sub <+: s := by
  simp [MatchAt]

theorem pyFind_eq_some_iff (sub s : List Char) (i : Nat) :
    pyFind sub s = some i ↔ MatchAt sub s i ∧ ∀ j < i, ¬ MatchAt sub s j := by
  induction s generalizing i with
  | nil =>
    simp only [pyFind]
    by_cases h : sub <+: ([] : List Char) <;>
      simp only [h, if_true, if_false, reduceCtorEq, Option.some.injEq]
    · constructor
      · rintro rfl
        exact ⟨(matchAt_zero_iff sub []).mpr h, by omega⟩
      · rintro ⟨hm, hmin⟩
        by_contra hne
        have h0 : (0 : Nat) < i := Nat.pos_of_ne_zero (fun h0 => hne h0.symm)
        exact hmin 0 h0 ((matchAt_zero_iff sub []).mpr h)
    · constructor
      · simp
      · rintro ⟨hm, -⟩
        rw [MatchAt, List.drop_nil] at hm
        exact absurd hm h
  | cons c t ih =>
    simp only [pyFind]
    by_cases h : sub <+: (c :: t) <;> simp only [h, if_true, if_false]
    · constructor
      · rintro h0
        cases h0
        exact ⟨(matchAt_zero_iff sub (c :: t)).mpr h, by omega⟩
      · rintro ⟨hm, hmin⟩
        by_cases hi : i = 0
        · simp [hi]
        · exact absurd ((matchAt_zero_iff sub (c :: t)).mpr h)
            (hmin 0 (Nat.pos_of_ne_zero hi))
    · constructor
      · intro hmap
        obtain ⟨j, hj, rfl⟩ := Option.map_eq_some'.mp hmap
        obtain ⟨hm, hmin⟩ := (ih j).mp hj
        refine ⟨hm, ?_⟩
        intro k hk
        match k with
        | 0 => exact fun hmk => h ((matchAt_zero_iff sub (c :: t)).mp hmk)
        | k + 1 => exact hmin k (by omega)
      · rintro ⟨hm, hmin⟩
        match i with
        | 0 => exact absurd ((matchAt_zero_iff sub (c :: t)).mp hm) h
        | i + 1 =>
          have ht : pyFind sub t = some i := by
            refine (ih i).mpr ⟨hm, ?_⟩
            intro j hj
            exact hmin (j + 1) (by omega)
          simp [ht]

theorem pyFind_eq_none_iff (sub s : List Char) :
    pyFind sub s = none ↔ ∀ i, ¬ MatchAt sub s i := by
  induction s with
  | nil =>
    simp only [pyFind]
    by_cases h : sub <+: ([] : List Char) <;> simp only [h, if_true, if_false]
    · constructor
      · simp
      · intro hall
        exact absurd ((matchAt_zero_iff sub []).mpr h) (hall 0)
    · constructor
      · intro _ i hm
        rw [MatchAt, List.drop_nil] at hm
        exact absurd hm h
      · simp
  | cons c t ih =>
    simp only [pyFind]
    by_cases h : sub <+: (c :: t) <;> simp only [h, if_true, if_false]
    · constructor
      · simp
      · intro hall
        exact absurd ((matchAt_zero_iff sub (c :: t)).mpr h) (hall 0)
    · rw [Option.map_eq_none', ih]
      constructor
      · intro hall i
        match i with
        | 0 => exact fun hm => h ((matchAt_zero_iff sub (c :: t)).mp hm)
        | i + 1 => exact hall i
      · intro hall i
        exact hall (i + 1)

theorem pyFind_intro (sub s : List Char) (i : Nat)
    (hm : MatchAt sub s i) (hmin : ∀ j < i, ¬ MatchAt sub s j) :
    pyFind sub s = some i := (pyFind_eq_some_iff sub s i).mpr ⟨hm, hmin⟩

theorem pyContains_eq_true_iff (s sub : List Char) :
    pyContains s sub = true ↔ ∃ i, MatchAt sub s i := by
  rw [pyContains, Option.isSome_iff_ne_none]
  constructor
  · intro h
    rcases he : pyFind sub s with _ | i
    · exact absurd he h
    · exact ⟨i, ((pyFind_eq_some_iff sub s i).mp he).1⟩
  · rintro ⟨i, hi⟩ hnone
    exact (pyFind_eq_none_iff sub s).mp hnone i hi

theorem pyContains_eq_false_of_none (s sub : List Char) (h : pyFind sub s = none) :
    pyContains s sub = false := by
  simp [pyContains, h]

/-! ## C9 -/

/-- C9: for every HTML text and any two content-type values, `extract_keywords`
returns the same result — the output is entirely independent of the
content-type argument (the script accepts `ctype` but never reads it). -/
theorem extract_keywords_independent_of_ctype (html : List Char) (t1 t2 : CType) :
    extract_keywords html t1 = extract_keywords html t2 := rfl

/-! ## C5 -/

/-- C5 counterexample: on `c5Html` the meta-tag strategy produces the
(non-empty) text `Untitled`, and `extract_keywords` returns `"Untitled"` — so
`"Untitled"` is *not* returned exactly when no strategy produced text; the
claimed biconditional fails in the only-if direction. -/
theorem c5_counterexample :
    extract_keywords c5Html CType.briefing = "Untitled".data
      ∧ metaSearch c5Html = some "Untitled".data := by
  constructor <;> decide

/-- C5 (amended): if none of the three extraction strategies matches — no
keywords meta tag, no story-title headings, no title element — then
`extract_keywords` returns the literal `"Untitled"`.  (The converse does not
hold: a strategy may itself produce the text `Untitled`.) -/
theorem extract_keywords_untitled_fallback (html : List Char) (ctype : CType)
    (hmeta : metaSearch html = none) (hstory : findAllStory html = [])
    (htitle : titleSearch html = none) :
    extract_keywords html ctype = "Untitled".data := by
  unfold extract_keywords
  rw [hmeta, hstory, htitle]
  rfl

/-- C5 witness: the amended theorem applied to a document with none of the
three shapes. -/
theorem extract_keywords_untitled_fallback_witness :
    metaSearch "plain text".data = none ∧ findAllStory "plain text".data = []
      ∧ titleSearch "plain text".data = none
      ∧ extract_keywords "plain text".data CType.card = "Untitled".data :=
  ⟨by decide, by decide, by decide,
    extract_keywords_untitled_fallback "plain text".data CType.card
      (by decide) (by decide) (by decide)⟩

/-! ## C6 -/

/-- C6: whenever the keywords meta tag matches (in particular in a document
that also has story-title headings), `extract_keywords` returns the meta tag's
captured content verbatim, trimmed, ignoring the headings. -/
theorem extract_keywords_meta_priority (html : List Char) (ctype : CType)
    (grp : List Char) (hmeta : metaSearch html = some grp)
    (_hstory : findAllStory html ≠ []) :
    extract_keywords html ctype = pyStrip grp := by
  unfold extract_keywords
  rw [hmeta]

/-- C6 witness: a document carrying both the meta tag and a story heading
takes the meta content, not the heading. -/
theorem extract_keywords_meta_priority_witness :
    metaSearch c6Html = some " Fed cuts rates ".data
      ∧ findAllStory c6Html ≠ []
      ∧ extract_keywords c6Html CType.briefing = "Fed cuts rates".data :=
  ⟨by decide, by decide, by
    have h := extract_keywords_meta_priority c6Html CType.briefing
      " Fed cuts rates ".data (by decide) (by decide)
    rw [h]
    decide⟩

/-! ## C7 -/

/-- C7: with no meta tag and no story headings but a matching title element,
`extract_keywords` returns the title text cleaned by `cleanTitle` — markup
stripped, trimmed, and the leading brand prefix up to the first of the
configured separators (`" — "`, `" | "`, `"—"`, `"|"`, tried in that order)
removed; in particular the title `순살카드뉴스 — 이번 주 시황` yields
`이번 주 시황`. -/
theorem extract_keywords_title_fallback :
    (∀ (html : List Char) (ctype : CType) (inner : List Char),
      metaSearch html = none → findAllStory html = [] →
      titleSearch html = some inner →
      extract_keywords html ctype = cleanTitle inner)
    ∧ extract_keywords "<title>순살카드뉴스 — 이번 주 시황</title>".data CType.card
      = "이번 주 시황".data := by
  constructor
  · intro html ctype inner hmeta hstory htitle
    unfold extract_keywords
    rw [hmeta, hstory, htitle]
    rfl
  · decide

/-! ## C3 -/

theorem detectFrom_eq_find (rules : List (List Char × CType × List Char × List Char))
    (fn : List Char) :
    detectFrom rules fn = (rules.find? fun r => pyContains fn r.1).map fun r => r.2 := by
  induction rules with
  | nil => rfl
  | cons r rest ih =>
    obtain ⟨pat, ctype, dir, suf⟩ := r
    by_cases h : pyContains fn pat = true
    · simp [detectFrom, List.find?_cons, h]
    · rw [Bool.not_eq_true] at h
      simp [detectFrom, List.find?_cons, h, ih]

theorem pyContains_append_self (pre pat post : List Char) :
    pyContains (pre ++ pat ++ post) pat = true := by
  refine (pyContains_eq_true_iff _ _).mpr ⟨pre.length, ?_⟩
  rw [MatchAt, List.append_assoc, List.drop_left]
  exact List.prefix_append pat post

/-- C3: `detect_type` evaluates the `TYPES` rules in their listed priority
order and returns the first rule whose pattern occurs in the filename (the
table's `find?`); a filename containing `순살크립토카드뉴스` anywhere is
classified as `(crypto-card, cardnews, -crypto)` because that longer pattern
is listed first; and the result is `none` (the `(None, None, None)` return)
exactly when no pattern occurs. -/
theorem detect_type_first_match (fn : List Char) :
    detect_type fn = ((TYPES.find? fun r => pyContains fn r.1).map fun r => r.2)
    ∧ (∀ pre post : List Char,
        detect_type (pre ++ "순살크립토카드뉴스".data ++ post)
          = some (CType.cryptoCard, "cardnews".data, "-crypto".data))
    ∧ (detect_type fn = none ↔ ∀ r ∈ TYPES, pyContains fn r.1 = false) := by
  refine ⟨detectFrom_eq_find TYPES fn, ?_, ?_⟩
  · intro pre post
    have h := pyContains_append_self pre "순살크립토카드뉴스".data post
    rw [detect_type, detectFrom_eq_find,
      show TYPES.find?
          (fun r => pyContains (pre ++ "순살크립토카드뉴스".data ++ post) r.1)
        = some ("순살크립토카드뉴스".data, CType.cryptoCard, "cardnews".data,
            "-crypto".data) from List.find?_cons_of_pos _ h]
    rfl
  · rw [detect_type, detectFrom_eq_find TYPES fn, Option.map_eq_none', List.find?_eq_none]
    constructor
    · intro h r hr
      simpa using h r hr
    · intro h r hr
      simp [h r hr]

/-- C3 witness: the first-match rule applied to a concrete filename containing
the long crypto-cardnews pattern, and to an unclassifiable filename. -/
theorem detect_type_first_match_witness :
    detect_type ("x".data ++ "순살크립토카드뉴스".data ++ "_20260302.html".data)
      = some (CType.cryptoCard, "cardnews".data, "-crypto".data)
    ∧ detect_type "plain.html".data = none :=
  ⟨(detect_type_first_match []).2.1 "x".data "_20260302.html".data,
    (detect_type_first_match "plain.html".data).2.2.mpr (by decide)⟩

/-! ## C4 -/

theorem eightAt_zero_iff (s : List Char) :
    EightAt s 0 ↔ ((s.take 8).length = 8 ∧ (s.take 8).all Char.isDigit) := by
  rw [EightAt, List.drop_zero, List.all_eq_true]

theorem eightAt_cons_succ (c : Char) (t : List Char) (j : Nat) :
    EightAt (c :: t) (j + 1) ↔ EightAt t j := by
  rw [EightAt, EightAt, List.drop_succ_cons]

theorem findEight_eq_none_iff (s : List Char) :
    findEight s = none ↔ ∀ i, ¬ EightAt s i := by
  induction s with
  | nil =>
    simp only [findEight, true_iff]
    intro i h
    have := h.1
    simp at this
  | cons c t ih =>
    rw [findEight]
    by_cases h : ((c :: t).take 8).length = 8 ∧ ((c :: t).take 8).all Char.isDigit
    · rw [if_pos h]
      constructor
      · simp
      · intro hall
        exact absurd ((eightAt_zero_iff (c :: t)).mpr h) (hall 0)
    · rw [if_neg h, ih]
      constructor
      · intro hall i
        match i with
        | 0 => exact fun h0 => h ((eightAt_zero_iff (c :: t)).mp h0)
        | i + 1 => exact fun hi => hall i ((eightAt_cons_succ c t i).mp hi)
      · intro hall i hi
        exact hall (i + 1) ((eightAt_cons_succ c t i).mpr hi)

theorem findEight_eq_some_iff (s d8 : List Char) :
    findEight s = some d8 ↔
      ∃ i, EightAt s i ∧ (∀ j < i, ¬ EightAt s j) ∧ d8 = (s.drop i).take 8 := by
  induction s generalizing d8 with
  | nil =>
    simp only [findEight, false_iff, reduceCtorEq]
    rintro ⟨i, hi, -, -⟩
    have := hi.1
    simp at this
  | cons c t ih =>
    rw [findEight]
    by_cases h : ((c :: t).take 8).length = 8 ∧ ((c :: t).take 8).all Char.isDigit
    · rw [if_pos h]
      constructor
      · rintro h0
        cases h0
        exact ⟨0, (eightAt_zero_iff (c :: t)).mpr h, by omega, by simp⟩
      · rintro ⟨i, hi, hmin, rfl⟩
        match i with
        | 0 => simp
        | i + 1 =>
          exact absurd ((eightAt_zero_iff (c :: t)).mpr h) (hmin 0 (by omega))
    · rw [if_neg h, ih]
      constructor
      · rintro ⟨i, hi, hmin, rfl⟩
        refine ⟨i + 1, (eightAt_cons_succ c t i).mpr hi, ?_, by rw [List.drop_succ_cons]⟩
        intro j hj
        match j with
        | 0 => exact fun h0 => h ((eightAt_zero_iff (c :: t)).mp h0)
        | j + 1 => exact fun hji => hmin j (by omega) ((eightAt_cons_succ c t j).mp hji)
      · rintro ⟨i, hi, hmin, rfl⟩
        match i with
        | 0 => exact absurd ((eightAt_zero_iff (c :: t)).mp hi) h
        | i + 1 =>
          refine ⟨i, (eightAt_cons_succ c t i).mp hi, ?_, by rw [List.drop_succ_cons]⟩
          intro j hj
          exact fun hji => hmin (j + 1) (by omega) ((eightAt_cons_succ c t j).mpr hji)

/-- C4: `extract_date` locates the leftmost run of 8 consecutive digits and
returns it split as `(YYYY, MMDD, "YYYY.MM.DD")`; when the filename has no 8
consecutive digits anywhere it returns `none` (the `(None, None, None)`
return). -/
theorem extract_date_first_eight (fn : List Char) :
    (∀ y md df, extract_date fn = some (y, md, df) →
      ∃ i, EightAt fn i ∧ (∀ j < i, ¬ EightAt fn j)
        ∧ y = (fn.drop i).take 4 ∧ md = ((fn.drop i).drop 4).take 4
        ∧ df = y ++ ".".data ++ md.take 2 ++ ".".data ++ md.drop 2)
    ∧ (extract_date fn = none ↔ ∀ i, ¬ EightAt fn i) := by
  constructor
  · intro y md df h
    rw [extract_date, Option.map_eq_some'] at h
    obtain ⟨d8, hd8, heq⟩ := h
    obtain ⟨i, hi, hmin, rfl⟩ := (findEight_eq_some_iff fn d8).mp hd8
    obtain ⟨rfl, rfl, rfl⟩ : y = ((fn.drop i).take 8).take 4
        ∧ md = ((fn.drop i).take 8).drop 4
        ∧ df = ((fn.drop i).take 8).take 4 ++ ".".data
          ++ (((fn.drop i).take 8).drop 4).take 2 ++ ".".data
          ++ ((fn.drop i).take 8).drop 6 := by
      refine ⟨?_, ?_, ?_⟩ <;> · injection heq.symm with h1 h2; try injection h2 with h2 h3
      all_goals simp_all
    refine ⟨i, hi, hmin, ?_, ?_, ?_⟩
    · simp [List.take_take]
    · rw [List.drop_take]
    · have h6 : ((fn.drop i).take 8).drop 6 = (((fn.drop i).take 8).drop 4).drop 2 := by
        rw [List.drop_drop]
      rw [h6]
  · rw [extract_date, Option.map_eq_none', findEight_eq_none_iff]

/-- C4 witness: applied to the script's documented example filename and to a
digit-free filename. -/
theorem extract_date_first_eight_witness :
    extract_date "순살브리핑_20260302.html".data
      = some ("2026".data, "0302".data, "2026.03.02".data)
    ∧ (∀ i, ¬ EightAt "nodate.html".data i) :=
  ⟨by decide, (extract_date_first_eight "nodate.html".data).2.mp (by decide)⟩
theorem extract_keywords_title_fallback_witness :
    metaSearch "<title>순살카드뉴스 — 이번 주 시황</title>".data = none
      ∧ findAllStory "<title>순살카드뉴스 — 이번 주 시황</title>".data = []
      ∧ titleSearch "<title>순살카드뉴스 — 이번 주 시황</title>".data
        = some "순살카드뉴스 — 이번 주 시황".data
      ∧ extract_keywords "<title>순살카드뉴스 — 이번 주 시황</title>".data CType.card
        = cleanTitle "순살카드뉴스 — 이번 주 시황".data :=
  ⟨by decide, by decide, by decide,
    extract_keywords_title_fallback.1 _ CType.card "순살카드뉴스 — 이번 주 시황".data
      (by decide) (by decide) (by decide)⟩

/-! ## C8 -/

/-- C8: in a batch run, a file whose filename yields no recognized type or no
extractable date is skipped (its parse is `none`) while the remaining files
continue to be processed (the deployed items are exactly the `filterMap` of
the per-file parse over the argument list, in order); and the run exits with
code 1 exactly when no arguments were given or zero files were successfully
classified. -/
theorem main_skip_and_exit_code (args : List (List Char)) (read : List Char → List Char) :
    ((mainModel args read = RunResult.usageError
        ∨ mainModel args read = RunResult.noValidFiles)
      ↔ (args = [] ∨ args.filterMap (mkItem read) = []))
    ∧ (∀ fn, detect_type fn = none ∨ extract_date fn = none → mkItem read fn = none)
    ∧ (∀ its, mainModel args read = RunResult.deployed its →
        its = args.filterMap (mkItem read) ∧ its ≠ []) := by
  refine ⟨?_, ?_, ?_⟩
  · by_cases ha : args = []
    · subst ha
      simp [mainModel]
    · have ha' : args.isEmpty = false := by simpa [List.isEmpty_iff] using ha
      by_cases hb : args.filterMap (mkItem read) = []
      · simp [mainModel, ha', hb, ha]
      · have hb' : (args.filterMap (mkItem read)).isEmpty = false := by
          simpa [List.isEmpty_iff] using hb
        simp [mainModel, ha', hb', ha, hb]
  · intro fn h
    rcases hd : detect_type fn with _ | v <;> rcases he : extract_date fn with _ | w <;>
      simp only [mkItem, hd, he] <;> rcases h with h | h <;> simp_all
  · intro its h
    by_cases ha : args.isEmpty
    · simp [mainModel, ha] at h
    · by_cases hb : (args.filterMap (mkItem read)).isEmpty
      · simp [mainModel, ha, hb] at h
      · simp only [mainModel, ha, hb, Bool.false_eq_true, if_false,
          RunResult.deployed.injEq] at h
        subst h
        exact ⟨rfl, by simpa [List.isEmpty_iff] using hb⟩

/-- C8 witness: a two-file batch where one file fails classification and the
other deploys; and applications of the exit-code characterisation to an empty
and an all-invalid argument list. -/
theorem main_skip_and_exit_code_witness :
    mkItem (fun _ => []) "bad.html".data = none
    ∧ (mainModel [] (fun _ => []) = RunResult.usageError
        ∨ mainModel [] (fun _ => []) = RunResult.noValidFiles)
    ∧ (mainModel ["bad.html".data, "순살브리핑_20260302.html".data] (fun _ => [])
        = RunResult.deployed
            (["bad.html".data, "순살브리핑_20260302.html".data].filterMap
              (mkItem fun _ => []))
      → ["bad.html".data, "순살브리핑_20260302.html".data].filterMap (mkItem fun _ => [])
          ≠ []) :=
  ⟨(main_skip_and_exit_code [] (fun _ => [])).2.1 "bad.html".data (Or.inl (by decide)),
    (main_skip_and_exit_code [] (fun _ => [])).1.mpr (Or.inl rfl),
    fun h => ((main_skip_and_exit_code
      ["bad.html".data, "순살브리핑_20260302.html".data] (fun _ => [])).2.2 _ h).2⟩

/-! ## C2 -/

/-- C2: when the batch has a briefing item (`has_briefing = true`) and the
homepage tracks a latest date, `update_main_index` rewrites the latest-pointer
text `Latest &mdash; <old date>` to the new date and the iframe link target
`/newsletters/<old>/<old>.html" title="순살브리핑 최신호"` to the new date's
path; and when the previously-latest briefing file does not exist, the
back-fill insertion is skipped while the run continues — the result is
exactly step 2 applied to the hero-updated content. -/
theorem update_main_index_missing_backfill (fs : List Char → Option (List Char))
    (items : List Item) (date_fmt yyyy mmdd c old_yyyy old_mmdd old_date_fmt : List Char)
    (hhero : get_hero_info c = some (old_yyyy, old_mmdd, old_date_fmt))
    (hmiss : fs (newsPath old_yyyy old_mmdd) = none) :
    update_main_index fs items date_fmt true yyyy mmdd c =
      (let c1 := pyReplace
          (pyReplace c (latestLit ++ old_date_fmt) (latestLit ++ date_fmt))
          (iframeLit old_yyyy old_mmdd) (iframeLit yyyy mmdd)
       if !(pyContains c (date_fmt ++ " 전체 콘텐츠".data))
       then freshToday items date_fmt c1
       else appendToday items date_fmt c1) := by
  simp only [update_main_index, heroStep, hhero, hmiss, if_true]

/-- C2 witness: a homepage that tracks `2026.02.23` as latest, with the old
briefing file absent from the filesystem. -/
theorem update_main_index_missing_backfill_witness :
    get_hero_info "Latest &mdash; 2026.02.23".data
      = some ("2026".data, "0223".data, "2026.02.23".data)
    ∧ update_main_index (fun _ => none) [] "2026.03.02".data true "2026".data "0302".data
        "Latest &mdash; 2026.02.23".data =
      (let c1 := pyReplace
          (pyReplace "Latest &mdash; 2026.02.23".data
            (latestLit ++ "2026.02.23".data) (latestLit ++ "2026.03.02".data))
          (iframeLit "2026".data "0223".data) (iframeLit "2026".data "0302".data)
       if !(pyContains "Latest &mdash; 2026.02.23".data
           ("2026.03.02".data ++ " 전체 콘텐츠".data))
       then freshToday [] "2026.03.02".data c1
       else appendToday [] "2026.03.02".data c1) :=
  ⟨by decide,
    update_main_index_missing_backfill (fun _ => none) [] "2026.03.02".data
      "2026".data "0302".data "Latest &mdash; 2026.02.23".data
      "2026".data "0223".data "2026.02.23".data (by decide) rfl⟩

/-! ## C10 -/

theorem orderedInsert_of_forall_le (x : Item) (s : List Item)
    (h : ∀ z ∈ s, leItem x z) : List.orderedInsert leItem x s = x :: s := by
  cases s with
  | nil => rfl
  | cons y t =>
    rw [List.orderedInsert, if_pos (h y (List.mem_cons_self y t))]

theorem filter_orderedInsert_pos (p : Item → Bool) (x : Item) (hp : p x = true)
    (s : List Item) (hs : List.Sorted leItem s) :
    (List.orderedInsert leItem x s).filter p
      = List.orderedInsert leItem x (s.filter p) := by
  induction s with
  | nil => simp [List.orderedInsert, hp]
  | cons y t ih =>
    obtain ⟨hyt, ht⟩ := List.sorted_cons.mp hs
    rw [List.orderedInsert]
    by_cases hxy : leItem x y
    · rw [if_pos hxy]
      by_cases hpy : p y = true
      · simp [List.filter_cons, hp, hpy, List.orderedInsert, hxy]
      · have hpy' : p y = false := by simpa using hpy
        simp only [List.filter_cons, hp, hpy', if_true, if_false, Bool.false_eq_true]
        rw [orderedInsert_of_forall_le]
        intro z hz
        exact Trans.trans hxy (hyt z (List.mem_of_mem_filter hz))
    · rw [if_neg hxy]
      by_cases hpy : p y = true
      · simp only [List.filter_cons, hpy, if_true, ih ht, List.orderedInsert,
          if_neg hxy]
      · have hpy' : p y = false := by simpa using hpy
        simp only [List.filter_cons, hpy', Bool.false_eq_true, if_false, ih ht]

theorem filter_orderedInsert_neg (p : Item → Bool) (x : Item) (hp : p x = false)
    (s : List Item) :
    (List.orderedInsert leItem x s).filter p = s.filter p := by
  induction s with
  | nil => simp [List.orderedInsert, hp]
  | cons y t ih =>
    rw [List.orderedInsert]
    by_cases hxy : leItem x y
    · rw [if_pos hxy]
      simp [List.filter_cons, hp]
    · rw [if_neg hxy]
      by_cases hpy : p y = true
      · simp [List.filter_cons, hpy, ih]
      · have hpy' : p y = false := by simpa using hpy
        simp [List.filter_cons, hpy', ih]

theorem insertionSort_filter (p : Item → Bool) (l : List Item) :
    (List.insertionSort leItem l).filter p = List.insertionSort leItem (l.filter p) := by
  induction l with
  | nil => rfl
  | cons x t ih =>
    rw [List.insertionSort, List.filter_cons]
    by_cases hp : p x = true
    · rw [if_pos hp, List.insertionSort,
        filter_orderedInsert_pos p x hp _ (List.sorted_insertionSort leItem t), ih]
    · have hp' : p x = false := by simpa using hp
      rw [hp']
      simp only [Bool.false_eq_true, if_false]
      rw [filter_orderedInsert_neg p x hp', ih]

theorem foldl_skip_filter (g : List Char → Item → List Char) (l : List Item)
    (c : List Char) :
    l.foldl (fun c i => if i.type == CType.briefing then c else g c i) c
      = (l.filter fun i => !(i.type == CType.briefing)).foldl g c := by
  induction l generalizing c with
  | nil => rfl
  | cons x t ih =>
    rw [List.foldl_cons, List.filter_cons]
    by_cases hx : x.type == CType.briefing
    · simp only [hx, if_true, Bool.not_true, Bool.false_eq_true, if_false]
      exact ih c
    · have hx' : (x.type == CType.briefing) = false := by simpa using hx
      simp only [hx', Bool.false_eq_true, if_false, Bool.not_false, if_true,
        List.foldl_cons]
      exact ih (g c x)

theorem freshToday_filter (items : List Item) (date_fmt c : List Char) :
    freshToday (items.filter fun i => !(i.type == CType.briefing)) date_fmt c
      = freshToday items date_fmt c := by
  simp only [freshToday, List.filter_filter, Bool.and_self]

theorem appendToday_filter (items : List Item) (date_fmt c : List Char) :
    appendToday (items.filter fun i => !(i.type == CType.briefing)) date_fmt c
      = appendToday items date_fmt c := by
  rw [appendToday, appendToday, foldl_skip_filter, foldl_skip_filter,
    insertionSort_filter, insertionSort_filter, List.filter_filter]
  simp only [Bool.and_self]

/-- C10: `update_main_index` never inserts a briefing-type entry of the batch
into a today section — its result is unchanged when the briefing items are
removed from the batch; consequently, in the fresh-date branch (`freshToday`),
when every item of the batch is briefing-type, the previously-first today
section is still demoted (its header restyled with `padding-top:0`) but no new
section is inserted. -/
theorem update_main_index_never_inserts_briefing :
    (∀ (fs : List Char → Option (List Char)) (items : List Item)
        (date_fmt : List Char) (hb : Bool) (yyyy mmdd c : List Char),
      update_main_index fs items date_fmt hb yyyy mmdd c
        = update_main_index fs (items.filter fun i => !(i.type == CType.briefing))
            date_fmt hb yyyy mmdd c)
    ∧ (∀ (items : List Item) (date_fmt c current_date : List Char),
        (∀ i ∈ items, i.type = CType.briefing) →
        get_first_today_date c = some current_date →
        freshToday items date_fmt c
          = pyReplace c (todayHdr current_date) (todayHdrPadded current_date)) := by
  constructor
  · intro fs items date_fmt hb yyyy mmdd c
    simp only [update_main_index, freshToday_filter, appendToday_filter]
  · intro items date_fmt c current_date hall hgf
    have hf : (items.filter fun i => !(i.type == CType.briefing)) = [] := by
      rw [List.filter_eq_nil_iff]
      intro i hi
      simp [hall i hi]
    rw [freshToday, hf]
    have hnil : List.insertionSort leItem ([] : List Item) = [] := rfl
    simp only [hnil, List.isEmpty_nil, if_true, hgf]

/-- C10 witness: an all-briefing batch over a homepage whose first today
section is dated `2026.02.23`: the section is demoted and nothing else
changes. -/
theorem update_main_index_never_inserts_briefing_witness :
    get_first_today_date c10Home = some "2026.02.23".data
    ∧ freshToday [c10Brief] "2026.03.02".data c10Home
      = pyReplace c10Home (todayHdr "2026.02.23".data)
          (todayHdrPadded "2026.02.23".data) :=
  ⟨by decide,
    update_main_index_never_inserts_briefing.2 [c10Brief] "2026.03.02".data c10Home
      "2026.02.23".data (by decide) (by decide)⟩

/-! ## C1

The two-call contract of `update_archive_index` is proved for any document
`header ++ rest` whose first occurrence of the section opener
`  <div class="today">` is exactly at the end of `header` (the start of the
existing sections) and which has no section for the new date yet.  The proofs
below chase the `find` calls of the script through the inserted section. -/

theorem prefix_getElem (l₁ l₂ : List Char) (h : l₁ <+: l₂) (n : Nat)
    (hn : n < l₁.length) : l₂[n]? = l₁[n]? := by
  obtain ⟨t, rfl⟩ := h
  exact List.getElem?_append_left hn

theorem matchAt_getElem (sub s : List Char) (i : Nat) (h : MatchAt sub s i)
    (t : Nat) (ht : t < sub.length) : s[i + t]? = sub[t]? := by
  rw [MatchAt] at h
  have h1 := prefix_getElem sub (s.drop i) h t ht
  rw [List.getElem?_drop] at h1
  exact h1

theorem matchAt_take_eq (sub s : List Char) (i : Nat) (h : MatchAt sub s i)
    (k : Nat) (hk : k ≤ sub.length) : (s.drop i).take k = sub.take k := by
  rw [MatchAt, List.prefix_iff_eq_take] at h
  conv_lhs => rw [show s.drop i = s.drop i from rfl]
  rw [show (s.drop i).take k = ((s.drop i).take sub.length).take k by
    rw [List.take_take]
    congr 1
    omega]
  rw [← h]

theorem prefix_of_append_of_le (sub u v : List Char) (hl : sub.length ≤ u.length) :
    (sub <+: u ++ v) ↔ sub <+: u := by
  rw [List.prefix_iff_eq_take, List.prefix_iff_eq_take, List.take_append_eq_append_take,
    Nat.sub_eq_zero_of_le hl, List.take_zero, List.append_nil]

theorem prefix_append_split (m a b : List Char) (h : m <+: a ++ b)
    (hl : a.length ≤ m.length) : m.drop a.length <+: b := by
  obtain ⟨t, ht⟩ := h
  refine ⟨t, ?_⟩
  have h1 : (a ++ b).drop a.length = b := List.drop_left a b
  rw [← ht, List.drop_append_eq_append_drop, Nat.sub_eq_zero_of_le hl,
    List.drop_zero] at h1
  exact h1

theorem matchAt_append_of_inner (sub a x y : List Char) (i : Nat)
    (h : i + sub.length ≤ a.length) (hm : MatchAt sub (a ++ x) i) :
    MatchAt sub (a ++ y) i := by
  have hia : i ≤ a.length := by omega
  rw [MatchAt, List.drop_append_eq_append_drop, Nat.sub_eq_zero_of_le hia,
    List.drop_zero] at hm ⊢
  have hlen : sub.length ≤ (a.drop i).length := by
    rw [List.length_drop]
    omega
  exact (prefix_of_append_of_le sub _ y hlen).mpr
    ((prefix_of_append_of_le sub _ x hlen).mp hm)

theorem getElem_all (L : List Char) (p : Char → Bool) (hL : L.all p = true)
    (k : Nat) (c : Char) (h : L[k]? = some c) : p c = true := by
  obtain ⟨hk, rfl⟩ := List.getElem?_eq_some_iff.mp h
  exact List.all_eq_true.mp hL _ (List.getElem_mem hk)

/-! ### Character facts about the generated-section literals -/

theorem archSecHead_lt (t : Nat) (ht : t < 26) (h : archSecHead[t]? = some '<') :
    t = 2 := by
  revert ht h
  revert t
  decide

theorem archGridLine_space (t : Nat) (ht : t < archGridLine.length)
    (h : archGridLine[t]? = some ' ') :
    t + 7 ≤ archGridLine.length ∧ (archGridLine.drop t).take 7 ≠ archGridEnd.take 7 := by
  revert ht h
  revert t
  decide

theorem archGridEnd_no_nl (k : Nat) (hk : k < 10) : ¬ archGridEnd[k]? = some '\n' := by
  revert hk
  revert k
  decide

/-- Positions of the space character in `dateMarker d` for a clean date: only
index 4 (inside `<div `). -/
theorem dateMarker_space (d : List Char)
    (hd : d.all (fun ch => ch.isDigit || ch == '.') = true)
    (t : Nat) (h : (dateMarker d)[t]? = some ' ') : t = 4 := by
  rw [dateMarker] at h
  by_cases h1 : t < ("<div class=\"today-title\">".data ++ d).length
  · rw [List.getElem?_append_left h1] at h
    by_cases h2 : t < ("<div class=\"today-title\">".data).length
    · rw [List.getElem?_append_left h2] at h
      have hc : ∀ t, t < 25 → ("<div class=\"today-title\">".data)[t]? = some ' ' → t = 4 := by
        decide
      exact hc t (by simpa using h2) h
    · rw [List.getElem?_append_right (le_of_not_lt h2)] at h
      have := getElem_all d _ hd _ _ h
      simp at this
  · rw [List.getElem?_append_right (le_of_not_lt h1)] at h
    have := getElem_all "</div>".data (fun c => !(c == ' ')) (by decide) _ _ h
    simp at this

/-- The length of `dateMarker d`. -/
theorem dateMarker_length (d : List Char) : (dateMarker d).length = 31 + d.length := by
  have h1 : ("<div class=\"today-title\">".data).length = 25 := by decide
  have h2 : ("</div>".data).length = 6 := by decide
  rw [dateMarker, List.length_append, List.length_append, h1, h2]
  omega

theorem dateMarker_five (d : List Char) : (dateMarker d)[5]? = some 'c' := by
  rw [dateMarker, List.append_assoc]
  rw [List.getElem?_append_left (by decide : (5 : Nat) < ("<div class=\"today-title\">".data).length)]
  decide

theorem dateMarker_seventeen (d : List Char) : (dateMarker d)[17]? = some '-' := by
  rw [dateMarker, List.append_assoc]
  rw [List.getElem?_append_left (by decide : (17 : Nat) < ("<div class=\"today-title\">".data).length)]
  decide

/-! ### Facts about the inserted entry line -/

theorem archiveLink_ends (item : Item) : ∃ X, archiveLink item = X ++ "</a>".data :=
  ⟨_, rfl⟩

theorem archiveLink_no_nl (item : Item)
    (hkw : item.keywords.all (fun c => !(c == '\n')) = true)
    (hdp : item.deploy_path.all (fun c => !(c == '\n')) = true) :
    (archiveLink item).all (fun c => !(c == '\n')) = true := by
  rw [archiveLink, build_link]
  rcases item with ⟨ty, dir, y, md, df, kw, dp⟩
  simp only at hkw hdp
  cases ty <;> simp +decide [ARCHIVE_TAGS, LABELS, List.all_append, hkw, hdp]

theorem entryLine_length (link : List Char) :
    (entryLine link).length = link.length + 7 := by
  have h6 : ("      ".data).length = 6 := by decide
  have h1 : ("\n".data).length = 1 := by decide
  rw [entryLine, List.length_append, List.length_append, h6, h1]
  omega

theorem entryLine_nl (link : List Char)
    (hlink : link.all (fun c => !(c == '\n')) = true)
    (q : Nat) (h : (entryLine link)[q]? = some '\n') : q = link.length + 6 := by
  rw [entryLine] at h
  by_cases h1 : q < ("      ".data ++ link).length
  · rw [List.getElem?_append_left h1] at h
    have hall : ("      ".data ++ link).all (fun c => !(c == '\n')) = true := by
      rw [List.all_append, Bool.and_eq_true]
      exact ⟨by decide, hlink⟩
    have := getElem_all _ _ hall _ _ h
    simp at this
  · rw [List.getElem?_append_right (le_of_not_lt h1)] at h
    obtain ⟨hlt, -⟩ := List.getElem?_eq_some_iff.mp h
    have h6 : ("      ".data).length = 6 := by decide
    have h1' : ("\n".data).length = 1 := by decide
    rw [h1'] at hlt
    rw [List.length_append, h6] at h1 hlt
    omega

theorem entryLine_a (X : List Char) :
    (entryLine (X ++ "</a>".data))[X.length + 8]? = some 'a' := by
  rw [entryLine]
  have hlt : X.length + 8 < ("      ".data ++ (X ++ "</a>".data)).length := by
    have h6 : ("      ".data).length = 6 := by decide
    have h4 : ("</a>".data).length = 4 := by decide
    rw [List.length_append, List.length_append, h6, h4]
    omega
  rw [List.getElem?_append_left hlt, show "      ".data ++ (X ++ "</a>".data)
      = ("      ".data ++ X) ++ "</a>".data by rw [List.append_assoc]]
  have hge : ("      ".data ++ X).length ≤ X.length + 8 := by
    have h6 : ("      ".data).length = 6 := by decide
    rw [List.length_append, h6]
    omega
  rw [List.getElem?_append_right hge]
  have h6 : ("      ".data).length = 6 := by decide
  rw [List.length_append, h6, show X.length + 8 - (6 + X.length) = 2 by omega]
  decide

/-! ### The fresh-date call -/

/-- The `new_section` literal of lines 305-312 is `renderSection` of a
one-entry section. -/
theorem newSection_eq (d link : List Char) :
    "  <div class=\"today\">\n    <div class=\"today-title\">".data ++ d
      ++ "</div>\n    <div class=\"today-grid\" style=\"grid-template-columns:1fr; gap:10px;\">\n      ".data
      ++ link ++ "\n    </div>\n  </div>\n\n".data
    = renderSection d [link] := by
  have hL1 : "  <div class=\"today\">\n    <div class=\"today-title\">".data
      = archSecHead ++ "<div class=\"today-title\">".data := by decide
  have hL2 : "</div>\n    <div class=\"today-grid\" style=\"grid-template-columns:1fr; gap:10px;\">\n      ".data
      = "</div>".data ++ (archGridLine ++ "      ".data) := by decide
  have hL3 : "\n    </div>\n  </div>\n\n".data
      = "\n".data ++ (archGridEnd ++ "\n\n".data) := by decide
  rw [renderSection, dateMarker, List.map_cons, List.map_nil, List.flatten_cons,
    List.flatten_nil, List.append_nil, entryLine, hL1, hL2, hL3]
  simp only [List.append_assoc]

/-- First call of C1: on a document `header ++ rest` with no section for the
item's date and with the first section opener at the end of `header`,
`update_archive_index` inserts exactly one new one-entry section between
`header` and `rest`. -/
theorem update_archive_index_fresh (item : Item) (header rest : List Char)
    (hfresh : pyFind (dateMarker item.date_formatted) (header ++ rest) = none)
    (hfirst : pyFind secStart (header ++ rest) = some header.length) :
    update_archive_index item (header ++ rest)
      = header ++ renderSection item.date_formatted [archiveLink item] ++ rest := by
  simp only [update_archive_index, pyContains_eq_false_of_none _ _ hfresh,
    Bool.false_eq_true, if_false, hfirst, List.take_left, List.drop_left]
  rw [newSection_eq]

/-! ### The second (append) call -/

theorem dateMarker_zero (d : List Char) : (dateMarker d)[0]? = some '<' := by
  rw [dateMarker, List.append_assoc]
  rw [List.getElem?_append_left (by decide : (0 : Nat) < ("<div class=\"today-title\">".data).length)]
  decide

theorem renderSection_one (d link : List Char) :
    renderSection d [link]
      = archSecHead ++ (dateMarker d ++ (archGridLine
          ++ (entryLine link ++ (archGridEnd ++ "\n\n".data)))) := by
  rw [renderSection, List.map_cons, List.map_nil, List.flatten_cons, List.flatten_nil,
    List.append_nil]
  simp only [List.append_assoc]

theorem renderSection_two (d link : List Char) :
    renderSection d [link, link]
      = archSecHead ++ (dateMarker d ++ (archGridLine
          ++ (entryLine link ++ (entryLine link ++ (archGridEnd ++ "\n\n".data))))) := by
  rw [renderSection, List.map_cons, List.map_cons, List.map_nil, List.flatten_cons,
    List.flatten_cons, List.flatten_nil, List.append_nil]
  simp only [List.append_assoc]

/-- After the fresh insertion, the first occurrence of the item's date marker
in the whole document is the one inside the new section, 26 characters after
`header`. -/
theorem archive_find_dateMarker (item : Item) (header rest : List Char)
    (hd : item.date_formatted.all (fun ch => ch.isDigit || ch == '.') = true)
    (hfresh : pyFind (dateMarker item.date_formatted) (header ++ rest) = none) :
    pyFind (dateMarker item.date_formatted)
      (header ++ renderSection item.date_formatted [archiveLink item] ++ rest)
      = some (header.length + 26) := by
  have h26 : archSecHead.length = 26 := by decide
  have hdmlen : (dateMarker item.date_formatted).length
      = 31 + item.date_formatted.length := dateMarker_length _
  set D := header ++ renderSection item.date_formatted [archiveLink item] ++ rest with hDdef
  have hD : D = header ++ (archSecHead ++ (dateMarker item.date_formatted
      ++ (archGridLine ++ (entryLine (archiveLink item)
        ++ (archGridEnd ++ ("\n\n".data ++ rest)))))) := by
    rw [hDdef, renderSection_one]
    simp only [List.append_assoc]
  refine pyFind_intro _ _ _ ?_ ?_
  · rw [MatchAt, hD, show header ++ (archSecHead ++ (dateMarker item.date_formatted
        ++ (archGridLine ++ (entryLine (archiveLink item)
          ++ (archGridEnd ++ ("\n\n".data ++ rest))))))
      = (header ++ archSecHead) ++ (dateMarker item.date_formatted
        ++ (archGridLine ++ (entryLine (archiveLink item)
          ++ (archGridEnd ++ ("\n\n".data ++ rest)))))
      by simp only [List.append_assoc]]
    rw [List.drop_left' (by rw [List.length_append, h26])]
    exact List.prefix_append _ _
  · intro j hj hm
    by_cases hc1 : j + (dateMarker item.date_formatted).length ≤ header.length
    · rw [hD] at hm
      exact (pyFind_eq_none_iff _ _).mp hfresh j
        (matchAt_append_of_inner _ header _ rest j hc1 hm)
    · by_cases hc2 : j < header.length
      · -- an occurrence straddling the header boundary is impossible
        rw [MatchAt, hD, List.drop_append_eq_append_drop,
          Nat.sub_eq_zero_of_le (le_of_lt hc2), List.drop_zero] at hm
        have hsplit := prefix_append_split _ _ _ hm
          (by rw [List.length_drop]; omega)
        rw [List.length_drop] at hsplit
        have hlen0 : 0 < ((dateMarker item.date_formatted).drop (header.length - j)).length := by
          rw [List.length_drop]
          omega
        have h0 := prefix_getElem _ _ hsplit 0 hlen0
        rw [List.getElem?_drop,
          List.getElem?_append_left (by rw [h26]; omega : (0 : Nat) < archSecHead.length)] at h0
        have hsp : (dateMarker item.date_formatted)[header.length - j + 0]? = some ' ' := by
          rw [← h0]
          decide
        rw [Nat.add_zero] at hsp
        have hk4 : header.length - j = 4 := dateMarker_space _ hd _ hsp
        have hlen1 : 1 < ((dateMarker item.date_formatted).drop (header.length - j)).length := by
          rw [List.length_drop]
          omega
        have h1 := prefix_getElem _ _ hsplit 1 hlen1
        rw [List.getElem?_drop, hk4,
          List.getElem?_append_left (by rw [h26]; omega : (1 : Nat) < archSecHead.length),
          dateMarker_five] at h1
        exact absurd h1.symm (by decide)
      · -- an occurrence starting in the first 26 characters of the new
        -- section is impossible
        have hjh : header.length ≤ j := le_of_not_lt hc2
        have ht26 : j - header.length < 26 := by omega
        have h0 : D[j]? = (dateMarker item.date_formatted)[0]? := by
          have h := matchAt_getElem _ D j hm 0 (by omega)
          simpa using h
        have hDj : D[j]? = archSecHead[j - header.length]? := by
          rw [hD, List.getElem?_append_right hjh,
            List.getElem?_append_left (by rw [h26]; omega : j - header.length < archSecHead.length)]
        have hlt : archSecHead[j - header.length]? = some '<' := by
          rw [← hDj, h0, dateMarker_zero]
        have ht2 : j - header.length = 2 := archSecHead_lt _ ht26 hlt
        have h17 : D[j + 17]? = (dateMarker item.date_formatted)[17]? :=
          matchAt_getElem _ D j hm 17 (by omega)
        have hD19 : D[j + 17]? = archSecHead[19]? := by
          rw [hD, List.getElem?_append_right (by omega : header.length ≤ j + 17),
            List.getElem?_append_left (by rw [h26]; omega : j + 17 - header.length < archSecHead.length),
            show j + 17 - header.length = 19 by omega]
        rw [dateMarker_seventeen] at h17
        rw [hD19] at h17
        exact absurd h17 (by decide)

/-- Inside a generated section, the first occurrence of the grid-end marker
`    </div>\n  </div>` at or after the date marker is the one that closes the
section: scanning from the date marker, no earlier position matches. -/
theorem find_gridEnd_generic (d link tail : List Char)
    (hd : d.all (fun ch => ch.isDigit || ch == '.') = true)
    (hlink : link.all (fun c => !(c == '\n')) = true)
    (hX : ∃ X, link = X ++ "</a>".data) :
    pyFind archGridEnd
      (dateMarker d ++ (archGridLine ++ (entryLine link ++ (archGridEnd ++ tail))))
      = some ((dateMarker d).length + archGridLine.length + (entryLine link).length) := by
  obtain ⟨X, hXeq⟩ := hX
  set dm := dateMarker d with hdm
  set E := entryLine link with hE
  set S := dm ++ (archGridLine ++ (E ++ (archGridEnd ++ tail))) with hS
  have hGE19 : archGridEnd.length = 19 := by decide
  have hdmlen : dm.length = 31 + d.length := dateMarker_length d
  have hElen : E.length = link.length + 7 := entryLine_length link
  have hlinklen : link.length = X.length + 4 := by
    rw [hXeq, List.length_append, show ("</a>".data).length = 4 from by decide]
  have hSgrp : S = (dm ++ (archGridLine ++ E)) ++ (archGridEnd ++ tail) := by
    simp only [hS, List.append_assoc]
  have hlen : (dm ++ (archGridLine ++ E)).length = dm.length + archGridLine.length + E.length := by
    simp only [List.length_append]
    omega
  refine pyFind_intro _ _ _ ?_ ?_
  · rw [MatchAt, hSgrp, List.drop_left' hlen]
    exact List.prefix_append archGridEnd tail
  · intro j hj hm
    have hj' : j < dm.length + archGridLine.length + E.length := hj
    by_cases hr1 : j < dm.length
    · -- start inside the date marker
      have h0 : S[j]? = archGridEnd[0]? := by
        have := matchAt_getElem archGridEnd S j hm 0 (by omega)
        simpa using this
      have hSj : S[j]? = dm[j]? := by
        rw [hS, List.getElem?_append_left hr1]
      have hsp : dm[j]? = some ' ' := by
        rw [← hSj, h0]
        decide
      have hj4 : j = 4 := dateMarker_space d hd j hsp
      have h1 : S[j + 1]? = archGridEnd[1]? := matchAt_getElem archGridEnd S j hm 1 (by omega)
      have hS5 : S[4 + 1]? = dm[5]? := by
        rw [hS, List.getElem?_append_left (by omega : 4 + 1 < dm.length)]
      rw [hj4] at h1
      rw [hS5] at h1
      rw [dateMarker_five d] at h1
      exact absurd h1 (by decide)
    · by_cases hr2 : j < dm.length + archGridLine.length
      · -- start inside the grid-opening line
        have hjd : dm.length ≤ j := le_of_not_lt hr1
        set t := j - dm.length with hgt
        have htlt : t < archGridLine.length := by omega
        have hSj : S[j]? = archGridLine[t]? := by
          rw [hS, List.getElem?_append_right hjd, List.getElem?_append_left htlt]
        have h0 : S[j]? = archGridEnd[0]? := by
          have := matchAt_getElem archGridEnd S j hm 0 (by omega)
          simpa using this
        have hsp : archGridLine[t]? = some ' ' := by
          rw [← hSj, h0]
          decide
        obtain ⟨ht7, hne⟩ := archGridLine_space t htlt hsp
        have htake : (S.drop j).take 7 = archGridEnd.take 7 := matchAt_take_eq archGridEnd S j hm 7 (by omega)
        have hSdrop : S.drop j = archGridLine.drop t ++ (E ++ (archGridEnd ++ tail)) := by
          rw [hS, List.drop_append_eq_append_drop, List.drop_eq_nil_of_le hjd,
            List.nil_append, List.drop_append_eq_append_drop,
            Nat.sub_eq_zero_of_le (le_of_lt htlt), List.drop_zero]
        rw [hSdrop, List.take_append_eq_append_take,
          Nat.sub_eq_zero_of_le (by rw [List.length_drop]; omega), List.take_zero,
          List.append_nil] at htake
        exact hne htake
      · -- start inside the entry line
        have hbase : dm.length + archGridLine.length ≤ j := le_of_not_lt hr2
        set q := j - (dm.length + archGridLine.length) with hgq
        have hqE : q < E.length := by omega
        have hgetE : ∀ p, dm.length + archGridLine.length ≤ p →
            S[p]? = (E ++ (archGridEnd ++ tail))[p - (dm.length + archGridLine.length)]? := by
          intro p hp
          rw [hS, show dm ++ (archGridLine ++ (E ++ (archGridEnd ++ tail)))
              = (dm ++ archGridLine) ++ (E ++ (archGridEnd ++ tail)) by simp only [List.append_assoc],
            List.getElem?_append_right (by rw [List.length_append]; omega : (dm ++ archGridLine).length ≤ p),
            List.length_append]
        have hnl : S[j + 10]? = archGridEnd[10]? := matchAt_getElem archGridEnd S j hm 10 (by omega)
        have hnl' : (E ++ (archGridEnd ++ tail))[q + 10]? = some '\n' := by
          have h := hgetE (j + 10) (by omega)
          rw [show j + 10 - (dm.length + archGridLine.length) = q + 10 by omega] at h
          rw [← h, hnl]
          decide
        by_cases hql : q + 10 < E.length
        · -- the matched newline is the entry line's terminator
          rw [List.getElem?_append_left hql] at hnl'
          have hq10 : q + 10 = link.length + 6 := entryLine_nl link hlink (q + 10) hnl'
          have h8 : S[j + 8]? = archGridEnd[8]? := matchAt_getElem archGridEnd S j hm 8 (by omega)
          have h8' : (E ++ (archGridEnd ++ tail))[q + 8]? = some 'v' := by
            have h := hgetE (j + 8) (by omega)
            rw [show j + 8 - (dm.length + archGridLine.length) = q + 8 by omega] at h
            rw [← h, h8]
            decide
          rw [List.getElem?_append_left (by omega : q + 8 < E.length)] at h8'
          have ha : E[X.length + 8]? = some 'a' := by
            rw [hE, hXeq]
            exact entryLine_a X
          rw [show q + 8 = X.length + 8 by omega] at h8'
          rw [ha] at h8'
          simp at h8'
        · -- the matched newline would be inside the first 10 characters of
          -- the grid-end marker, where there is none
          have hge : E.length ≤ q + 10 := le_of_not_lt hql
          rw [List.getElem?_append_right hge] at hnl'
          have hlt10 : q + 10 - E.length < 10 := by omega
          rw [List.getElem?_append_left (by omega : q + 10 - E.length < archGridEnd.length)] at hnl'
          exact archGridEnd_no_nl _ hlt10 hnl'

/-- Second call of C1: on the document produced by the fresh call, the
section for the date now exists, and `update_archive_index` appends the entry
as the last child of that section's entry list (no second section wrapper). -/
theorem update_archive_index_append (item : Item) (header rest : List Char)
    (hd : item.date_formatted.all (fun ch => ch.isDigit || ch == '.') = true)
    (hkw : item.keywords.all (fun c => !(c == '\n')) = true)
    (hdp : item.deploy_path.all (fun c => !(c == '\n')) = true)
    (hfresh : pyFind (dateMarker item.date_formatted) (header ++ rest) = none) :
    update_archive_index item
        (header ++ renderSection item.date_formatted [archiveLink item] ++ rest)
      = header ++ renderSection item.date_formatted
          [archiveLink item, archiveLink item] ++ rest := by
  have h26 : archSecHead.length = 26 := by decide
  set D := header ++ renderSection item.date_formatted [archiveLink item] ++ rest
    with hDdef
  have hD : D = header ++ (archSecHead ++ (dateMarker item.date_formatted
      ++ (archGridLine ++ (entryLine (archiveLink item)
        ++ (archGridEnd ++ ("\n\n".data ++ rest)))))) := by
    rw [hDdef, renderSection_one]
    simp only [List.append_assoc]
  have hfind : pyFind (dateMarker item.date_formatted) D = some (header.length + 26) :=
    archive_find_dateMarker item header rest hd hfresh
  have hcont : pyContains D (dateMarker item.date_formatted) = true := by
    rw [pyContains, hfind]
    rfl
  have hdrop : D.drop (header.length + 26)
      = dateMarker item.date_formatted ++ (archGridLine
          ++ (entryLine (archiveLink item)
            ++ (archGridEnd ++ ("\n\n".data ++ rest)))) := by
    rw [hD, show header ++ (archSecHead ++ (dateMarker item.date_formatted
        ++ (archGridLine ++ (entryLine (archiveLink item)
          ++ (archGridEnd ++ ("\n\n".data ++ rest))))))
      = (header ++ archSecHead) ++ (dateMarker item.date_formatted
        ++ (archGridLine ++ (entryLine (archiveLink item)
          ++ (archGridEnd ++ ("\n\n".data ++ rest)))))
      by simp only [List.append_assoc]]
    exact List.drop_left' (by rw [List.length_append, h26])
  have hfind2 := find_gridEnd_generic item.date_formatted (archiveLink item)
    ("\n\n".data ++ rest) hd (archiveLink_no_nl item hkw hdp) (archiveLink_ends item)
  have hfrom : pyFindFrom archGridEnd D (header.length + 26)
      = some ((dateMarker item.date_formatted).length + archGridLine.length
          + (entryLine (archiveLink item)).length + (header.length + 26)) := by
    rw [pyFindFrom, hdrop, hfind2]
    rfl
  simp only [update_archive_index, hcont, if_true, hfind, hfrom]
  have hgrp : D = (header ++ (archSecHead ++ (dateMarker item.date_formatted
      ++ (archGridLine ++ entryLine (archiveLink item)))))
        ++ (archGridEnd ++ ("\n\n".data ++ rest)) := by
    rw [hD]
    simp only [List.append_assoc]
  have hlenL : (header ++ (archSecHead ++ (dateMarker item.date_formatted
      ++ (archGridLine ++ entryLine (archiveLink item))))).length
      = (dateMarker item.date_formatted).length + archGridLine.length
          + (entryLine (archiveLink item)).length + (header.length + 26) := by
    simp only [List.length_append]
    rw [h26]
    omega
  rw [hgrp, List.take_left' hlenL, List.drop_left' hlenL, renderSection_two]
  simp only [entryLine, List.append_assoc]

/-- C1: take any archive index document `header ++ rest` whose first section
opener `  <div class="today">` sits exactly at the start of `rest` and which
has no section marker for the entry's date yet (the date is digits-and-dots,
the link's variable fields are newline-free).  The first call of
`update_archive_index` inserts exactly one new section containing exactly the
one rendered entry, positioned before all existing date sections (between
`header` and `rest`); invoking it a second time with the identical entry
finds the section existing and appends the entry as the last child of that
section's entry list, not a second section wrapper. -/
theorem update_archive_index_fresh_then_append (item : Item) (header rest : List Char)
    (hd : item.date_formatted.all (fun ch => ch.isDigit || ch == '.') = true)
    (hkw : item.keywords.all (fun c => !(c == '\n')) = true)
    (hdp : item.deploy_path.all (fun c => !(c == '\n')) = true)
    (hfresh : pyFind (dateMarker item.date_formatted) (header ++ rest) = none)
    (hfirst : pyFind secStart (header ++ rest) = some header.length) :
    update_archive_index item (header ++ rest)
      = header ++ renderSection item.date_formatted [archiveLink item] ++ rest
    ∧ update_archive_index item (update_archive_index item (header ++ rest))
      = header ++ renderSection item.date_formatted
          [archiveLink item, archiveLink item] ++ rest := by
  have h1 := update_archive_index_fresh item header rest hfresh hfirst
  refine ⟨h1, ?_⟩
  rw [h1]
  exact update_archive_index_append item header rest hd hkw hdp hfresh

/-- C1 witness: a concrete archive page with one pre-existing section opener,
receiving a `2026.03.02` card entry twice. -/
theorem update_archive_index_fresh_then_append_witness :
    pyFind (dateMarker c1Item.date_formatted)
        ("<body>\n".data ++ "  <div class=\"today\">old".data) = none
    ∧ pyFind secStart ("<body>\n".data ++ "  <div class=\"today\">old".data)
        = some ("<body>\n".data).length
    ∧ update_archive_index c1Item ("<body>\n".data ++ "  <div class=\"today\">old".data)
        = "<body>\n".data ++ renderSection c1Item.date_formatted [archiveLink c1Item]
            ++ "  <div class=\"today\">old".data
    ∧ update_archive_index c1Item
          (update_archive_index c1Item
            ("<body>\n".data ++ "  <div class=\"today\">old".data))
        = "<body>\n".data ++ renderSection c1Item.date_formatted
            [archiveLink c1Item, archiveLink c1Item] ++ "  <div class=\"today\">old".data := by
  have h := update_archive_index_fresh_then_append c1Item "<body>\n".data
    "  <div class=\"today\">old".data (by decide) (by decide) (by decide)
    (by decide) (by decide)
  exact ⟨by decide, by decide, h.1, h.2⟩

end Deploy
